import Mathlib

/-!
Verification of the ebchatbot backend (src/backend/agent.py, src/backend/main.py):
a shallow embedding of the tool layer, the websocket turn transport, the inbound
frame handling and the reasoning-loop configuration, with theorems settling the
spec claims about them.

Conventions of the embedding:
- The filesystem is a map from path to file content (a Lean `String`); Python
  text-mode reads and writes move whole strings.
- Python exceptions are explicit: a tool body is a value of `Except PyExc α`;
  a `try/except` block is a match on that value.  A tool whose result is
  `Except.ok s` returns the string `s` to the caller; `Except.error e` models a
  fault escaping to the caller.
- Effects of the outside world that the code merely reacts to (an unrelated
  I/O fault, the child process outcome, the directory scan) are passed in as
  explicit outcome parameters, so each code path of the source is reachable.
-/

/-- A Python exception value, as coarse as the except clauses of the source
need: `FileNotFoundError` carries the path, `subprocess.TimeoutExpired` is the
timeout, and every other exception is `other` with its message text. -/
inductive PyExc where
  | fileNotFound (path : String)
  | timeoutExpired
  | other (msg : String)
deriving DecidableEq, Repr

/-- Outcome of an I/O action that the source does not inspect beyond success
or failure: `ok` means the action succeeded, `fault msg` means it raised an
exception rendering as `msg`. -/
inductive IOOutcome where
  | ok
  | fault (msg : String)
deriving DecidableEq, Repr

/-- The filesystem: a map from path to the text content of the file there,
`none` when no file exists at the path. -/
abbrev FS : Type := String → Option String

/-- The empty filesystem. -/
def fsEmpty : FS := fun _ => none

/-- First `n` characters of a string, as Python text-mode `f.read(n)` and
Python slicing `s[:n]` take them (by code point). -/
def takeChars (n : Nat) (s : String) : String := ⟨s.data.take n⟩

/-- Python `s.strip()`: the string with leading and trailing whitespace
characters removed. -/
def stripStr (s : String) : String :=
  ⟨((s.data.dropWhile Char.isWhitespace).reverse.dropWhile
      Char.isWhitespace).reverse⟩

/-- Embedding of `read_file` (src/backend/agent.py lines 58-72).  The body
opens the path and reads at most 12000 characters; `oc` is the outcome of any
I/O the code does not itself decide (an unrelated fault such as a permission
error).  Opening a path with no file raises `FileNotFoundError`. -/
def read_file_body (fs : FS) (file_path : String) (oc : IOOutcome) :
    Except PyExc String :=
  match oc with
  | .fault m => .error (.other m)
  | .ok =>
    match fs file_path with
    | none => .error (.fileNotFound file_path)
    | some content =>
      let data := takeChars 12000 content
      .ok (if data = "" then "(empty file)" else data)

/-- The `read_file` tool: its body wrapped in the two except clauses of the
source (`except FileNotFoundError`, then `except Exception`). -/
def read_file (fs : FS) (file_path : String) (oc : IOOutcome) :
    Except PyExc String :=
  match read_file_body fs file_path oc with
  | .ok s => .ok s
  | .error (.fileNotFound p) => .ok ("Error: file not found – " ++ p)
  | .error .timeoutExpired => .ok "Error: "
  | .error (.other m) => .ok ("Error: " ++ m)

/-- Embedding of `write_file` (src/backend/agent.py lines 74-90).  The body
creates parent directories, opens the path and writes `content`; on success
the file at `file_path` holds exactly `content` and the tool reports
`len(content)` — the number of characters of `content` — in its success
string.  `oc` is the outcome of the directory creation / open / write I/O. -/
def write_file_body (fs : FS) (file_path content : String) (oc : IOOutcome) :
    Except PyExc String × FS :=
  match oc with
  | .fault m => (.error (.other m), fs)
  | .ok =>
    (.ok ("Wrote " ++ toString content.length ++ " chars to " ++ file_path),
     fun q => if q = file_path then some content else fs q)

/-- The `write_file` tool: its body wrapped in the single
`except Exception` clause of the source. -/
def write_file (fs : FS) (file_path content : String) (oc : IOOutcome) :
    Except PyExc String × FS :=
  match write_file_body fs file_path content oc with
  | (.ok s, fs') => (.ok s, fs')
  | (.error (.fileNotFound p), fs') => (.ok ("Error: file not found – " ++ p), fs')
  | (.error .timeoutExpired, fs') => (.ok "Error: timeout", fs')
  | (.error (.other m), fs') => (.ok ("Error: " ++ m), fs')

/-- One entry returned by `os.scandir`: a name, whether it is a directory,
whether it is a regular file (both false for entries such as broken links),
and its size in bytes. -/
structure DirEntry where
  name : String
  is_dir : Bool
  is_file : Bool
  size : Nat
deriving DecidableEq, Repr

/-- Lexicographic comparison of character lists by code point, the order
Python uses on strings: the empty list is least, and lists compare by their
first differing character. -/
def listCharLe : List Char → List Char → Bool
  | [], _ => true
  | _ :: _, [] => false
  | c :: cs, d :: ds =>
    if c.toNat < d.toNat then true
    else if d.toNat < c.toNat then false
    else listCharLe cs ds

/-- Python string comparison: lexicographic by code point. -/
def strLe (a b : String) : Bool :=
  listCharLe a.data b.data

/-- The first component of the Python sort key `(not e.is_dir(), e.name)`:
`False` sorts before `True`, so directories get 0 and non-directories 1. -/
def entryKey (e : DirEntry) : Nat :=
  if e.is_dir then 0 else 1

/-- The sort key comparison of `list_files`: Python compares the tuples
`(not e.is_dir(), e.name)` lexicographically, so directories come before
non-directories and names compare lexicographically within a group. -/
def entryLe (a b : DirEntry) : Bool :=
  if entryKey a < entryKey b then true
  else if entryKey b < entryKey a then false
  else strLe a.name b.name

/-- The entry order as a decidable relation, for sorting. -/
def entryRel (a b : DirEntry) : Prop := entryLe a b = true

instance : DecidableRel entryRel :=
  fun a b => inferInstanceAs (Decidable (entryLe a b = true))

/-- The sorted entry order of `list_files`: `sorted(os.scandir(directory),
key=lambda e: (not e.is_dir(), e.name))`, a stable sort by the key
comparison. -/
def sortEntries (entries : List DirEntry) : List DirEntry :=
  List.insertionSort entryRel entries

/-- One output line of `list_files`: the DIR or FILE tag, the name, and for
regular files the size in bytes. -/
def renderEntry (e : DirEntry) : String :=
  let tag := if e.is_dir then "DIR " else "FILE"
  let size := if e.is_file then " (" ++ toString e.size ++ " B)" else ""
  "[" ++ tag ++ "] " ++ e.name ++ size

/-- Outcome of `os.scandir`: the entries of the directory, or a fault (for a
missing or unreadable directory). -/
inductive ScanOutcome where
  | ok (entries : List DirEntry)
  | fault (msg : String)
deriving DecidableEq, Repr

/-- Embedding of `list_files` (src/backend/agent.py lines 92-110): sort the
scanned entries, render one line per entry, join with newlines, and report an
empty directory with a distinct marker string. -/
def list_files_body (oc : ScanOutcome) : Except PyExc String :=
  match oc with
  | .fault m => .error (.other m)
  | .ok entries =>
    let lines := (sortEntries entries).map renderEntry
    .ok (if lines = [] then "(empty directory)"
         else String.intercalate "\n" lines)

/-- The `list_files` tool: its body wrapped in the single `except Exception`
clause of the source. -/
def list_files (oc : ScanOutcome) : Except PyExc String :=
  match list_files_body oc with
  | .ok s => .ok s
  | .error (.fileNotFound p) => .ok ("Error: file not found – " ++ p)
  | .error .timeoutExpired => .ok "Error: timeout"
  | .error (.other m) => .ok ("Error: " ++ m)

/-- Outcome of the `subprocess.run` call of `execute_python`: the child
completed with a return code and captured stdout and stderr, or the 30 s
timeout fired (`subprocess.TimeoutExpired`), or the call itself faulted. -/
inductive RunOutcome where
  | completed (returncode : Int) (stdout stderr : String)
  | timeout
  | fault (msg : String)
deriving DecidableEq, Repr

/-- The outside-world outcomes of one `execute_python` invocation:
whether `tempfile.NamedTemporaryFile` succeeds in creating the scratch file,
whether `f.write(code)` then succeeds (each failing with an exception
message), and what `subprocess.run` does. -/
structure ExecOutcome where
  create : IOOutcome
  write : IOOutcome
  run : RunOutcome
deriving DecidableEq, Repr

/-- Embedding of `execute_python` (src/backend/agent.py lines 24-56),
returning the tool result together with whether the scratch file still exists
on disk after the tool returns.  The source sets `tmp_path` only after
`f.write(code)` succeeds, and the `finally` block unlinks the scratch file
only when `tmp_path` is set, so a fault in the write itself leaves the
created file behind. -/
def execute_python (code : String) (oc : ExecOutcome) :
    Except PyExc String × Bool :=
  match oc.create with
  | .fault m =>
    -- NamedTemporaryFile raised before any file existed: except Exception
    -- returns an error string; the finally block has nothing to unlink.
    (.ok ("Error: " ++ m), false)
  | .ok =>
    match oc.write with
    | .fault m =>
      -- the scratch file exists, but tmp_path was never assigned: the error
      -- string is returned and the finally block skips the unlink.
      (.ok ("Error: " ++ m), true)
    | .ok =>
      -- tmp_path is set; the finally block removes the scratch file on every
      -- one of these paths.
      let result : Except PyExc String :=
        match oc.run with
        | .completed rc out err =>
          if rc == 0 then
            .ok (if stripStr out = "" then "(no output)" else stripStr out)
          else
            .ok ("Exit " ++ toString rc ++ ":\n" ++ stripStr err)
        | .timeout => .ok "Error: execution timed out (30 s limit)"
        | .fault m => .ok ("Error: " ++ m)
      (result, false)

/-- The tool result disregards the value of `code` beyond what the child
process did with it; the scratch-file flag of `execute_python`. -/
def scratchRemains (code : String) (oc : ExecOutcome) : Bool :=
  (execute_python code oc).2

/-! ### The websocket transport (src/backend/main.py) -/

/-- The `content` attribute of a chunk of the model stream: a plain string,
or a list (the tool-call deltas the source skips). -/
inductive ChunkContent where
  | ofStr (s : String)
  | ofList (parts : List String)
deriving DecidableEq, Repr

/-- One event yielded by `agent.astream_events(..., version="v2")`, as far as
the websocket endpoint inspects it: the event kind, the chunk content for
model-stream events, the name and stringified input or output for tool
events, and for chain-end events the chain name together with the messages
of its output state when present. -/
inductive AgentEvent where
  | chatModelStream (content : ChunkContent)
  | toolStartEv (name : String) (inputRepr : String)
  | toolEndEv (name : String) (outputRepr : String)
  | chainEndEv (name : String) (outputMessages : Option (List String))
  | otherEv (kind : String)
deriving DecidableEq, Repr

/-- One outbound frame of the wire protocol of the endpoint. -/
inductive OutEvent where
  | token (content : String)
  | tool_start (tool : String) (inp : String)
  | tool_end (tool : String) (out : String)
  | done
  | error (message : String)
deriving DecidableEq, Repr

/-- The frames the endpoint sends for one agent event (src/backend/main.py
lines 54-96): a `token` frame for a model-stream chunk whose content is a
non-empty string, a `tool_start` frame with the input preview cut to 400
characters, a `tool_end` frame with the output preview cut to 600
characters, and nothing for every other event. -/
def emit (ev : AgentEvent) : List OutEvent :=
  match ev with
  | .chatModelStream (.ofStr s) => if s = "" then [] else [.token s]
  | .chatModelStream (.ofList _) => []
  | .toolStartEv n i => [.tool_start n (takeChars 400 i)]
  | .toolEndEv n o => [.tool_end n (takeChars 600 o)]
  | .chainEndEv _ _ => []
  | .otherEv _ => []

/-- The history update the endpoint performs on a chain-end event named
`LangGraph` that carries messages (src/backend/main.py lines 89-96); every
other event leaves the history alone. -/
def updateHistory (history : List String) (ev : AgentEvent) : List String :=
  match ev with
  | .chainEndEv n out =>
    if n = "LangGraph" then
      match out with
      | some msgs => msgs
      | none => history
    else history
  | _ => history

/-- The agent stream observed during one turn: the events delivered before
the stream ended, and `some msg` when the stream (or a send) then raised an
exception whose traceback renders as `msg`, `none` when it finished
normally. -/
structure TurnStream where
  events : List AgentEvent
  exc : Option String
deriving DecidableEq, Repr

/-- Embedding of one turn of the websocket endpoint (src/backend/main.py
lines 46-107): the user text has already been appended to the history; the
endpoint forwards a frame per agent event, then sends `done`; if the stream
raises, the except clause sends an `error` frame with the traceback cut to
600 characters and then sends `done`.  Returns the outbound frames of the
turn and the history left for the next turn. -/
def runTurn (history : List String) (userText : String) (stream : TurnStream) :
    List OutEvent × List String :=
  let h0 := history ++ [userText]
  let h1 := stream.events.foldl updateHistory h0
  match stream.exc with
  | none => ((stream.events.map emit).flatten ++ [.done], h1)
  | some msg =>
    ((stream.events.map emit).flatten ++ [.error (takeChars 600 msg), .done], h1)

/-- Whether a frame is the `done` frame. -/
def isDone : OutEvent → Bool
  | .done => true
  | _ => false

/-- Whether a frame is an `error` frame. -/
def isError : OutEvent → Bool
  | .error _ => true
  | _ => false

/-- Count of `done` frames in a turn. -/
def countDone (out : List OutEvent) : Nat :=
  out.countP isDone

/-- Decides that every `error` frame of the list is immediately followed by a
`done` frame. -/
def errorThenDone : List OutEvent → Bool
  | [] => true
  | .error _ :: rest =>
    (match rest with | .done :: _ => true | _ => false) && errorThenDone rest
  | _ :: rest => errorThenDone rest

/-- Decides that every `token` frame of the list carries non-empty content. -/
def tokensNonEmpty (out : List OutEvent) : Bool :=
  out.all fun e => match e with | .token s => decide (s ≠ "") | _ => true

/-- The content of a `token` frame, `none` for every other frame. -/
def tokenContent (e : OutEvent) : Option String :=
  match e with | .token s => some s | _ => none

/-- The token a model-stream chunk contributes: its content when that is a
non-empty string, nothing otherwise. -/
def chunkToken (ev : AgentEvent) : Option String :=
  match ev with
  | .chatModelStream (.ofStr s) => if s = "" then none else some s
  | _ => none

/-! ### Inbound frame handling (src/backend/main.py lines 39-44) -/

/-- A JSON value as `json.loads` returns it. -/
inductive JValue where
  | obj (fields : List (String × JValue))
  | arr (elems : List JValue)
  | str (s : String)
  | num (n : Int)
  | boolean (b : Bool)
  | null

/-- Python `data.get("message", "")` with a Python string default: a field
lookup on a dict, and an `AttributeError` on every other value, since only
dicts have a `get` attribute. -/
def pyGet (v : JValue) (key : String) (dflt : JValue) : Except PyExc JValue :=
  match v with
  | .obj fields =>
    match fields.lookup key with
    | some w => .ok w
    | none => .ok dflt
  | _ => .error (.other "AttributeError")

/-- Python `value.strip()`: trims surrounding whitespace of a string, and
raises an `AttributeError` on every non-string value. -/
def pyStrip (v : JValue) : Except PyExc String :=
  match v with
  | .str s => .ok (stripStr s)
  | _ => .error (.other "AttributeError")

/-- What the endpoint does with one parsed inbound frame before any turn
starts: ignore it and await the next frame, start a turn with the extracted
text, or let an exception escape the handler (the surrounding try catches
only `WebSocketDisconnect`, so the fault terminates the connection
handler). -/
inductive FrameOutcome where
  | ignored
  | startTurn (text : String)
  | fault (exc : String)
deriving DecidableEq, Repr

/-- Embedding of the frame handling of the endpoint (src/backend/main.py
lines 39-44).  The argument is the result of `json.loads` on the received
text: `Except.error` when the frame is not valid JSON (a
`json.decoder.JSONDecodeError` escapes), otherwise the parsed value, on
which the endpoint runs `data.get("message", "").strip()` and then skips
empty text with `continue`. -/
def frameStep (parsed : Except String JValue) : FrameOutcome :=
  match parsed with
  | .error _ => .fault "json.decoder.JSONDecodeError"
  | .ok data =>
    match pyGet data "message" (.str "") with
    | .error _ => .fault "AttributeError"
    | .ok v =>
      match pyStrip v with
      | .error _ => .fault "AttributeError"
      | .ok user_text => if user_text = "" then .ignored else .startTurn user_text

/-! ### The reasoning loop configuration (src/backend/agent.py lines 129-135) -/

/-- One tool call requested by the model: the tool name and its arguments
rendered as text. -/
structure ToolCall where
  name : String
  args : String
deriving DecidableEq, Repr

/-- One message of the loop conversation. -/
inductive Msg where
  | user (text : String)
  | assistant (text : String) (calls : List ToolCall)
  | toolResult (text : String)
deriving DecidableEq, Repr

/-- One generation step of the model: a final answer, or a request for tool
calls. -/
inductive GenStep where
  | final (text : String)
  | calls (cs : List ToolCall)

/-- State of the reasoning loop: still generating over a conversation, or
finished with a final answer. -/
inductive LoopState where
  | running (conv : List Msg)
  | finished (answer : String)

/-- Whether the loop is still running. -/
def LoopState.isRunning : LoopState → Bool
  | .running _ => true
  | .finished _ => false

/-- Modelled from the spec: the ReAct loop body that `create_react_agent`
supplies lives in the langgraph framework, not under src/; spec section 4.3
describes it as alternating generation and tool execution, appending one
tool result per requested call and re-entering generation, stopping only
when a generation step carries no tool calls.  `gen` is the black-box model
and `execTool` the sandbox dispatch. -/
def loopStep (gen : List Msg → GenStep) (execTool : ToolCall → String) :
    LoopState → LoopState
  | .finished a => .finished a
  | .running conv =>
    match gen conv with
    | .final t => .finished t
    | .calls cs =>
      .running (conv ++ [.assistant "" cs] ++ cs.map fun c => .toolResult (execTool c))

/-- The loop after `n` generate/act steps, starting from a conversation. -/
def loopIter (gen : List Msg → GenStep) (execTool : ToolCall → String)
    (conv : List Msg) : Nat → LoopState
  | 0 => .running conv
  | n + 1 => loopStep gen execTool (loopIter gen execTool conv n)

/-- A model that requests a `web_search` tool call at every generation step
and never produces a final answer. -/
def alwaysCalls : List Msg → GenStep :=
  fun _ => .calls [⟨"web_search", "q"⟩]

/-- The configuration surface of the loop that src/backend/agent.py chooses:
the tool names it registers and the step bound it passes to the framework.
`create_agent` (lines 132-135) calls `create_react_agent(llm, tools,
prompt=SYSTEM_PROMPT)` with no step or recursion bound argument, so the
repository sets no bound. -/
structure AgentSetup where
  toolNames : List String
  stepBound : Option Nat
deriving DecidableEq, Repr

/-- The setup `create_agent` builds: the five tools of `build_tools`, and no
step bound. -/
def create_agent_setup : AgentSetup :=
  { toolNames := ["web_search", "execute_python", "read_file", "write_file",
                  "list_files"],
    stepBound := none }

/-! ### Helper lemmas -/

theorem length_takeChars (n : Nat) (s : String) :
    (takeChars n s).length = min n s.length := by
  show (s.data.take n).length = min n s.data.length
  simp

theorem takeChars_of_length_le (n : Nat) (s : String) (h : s.length ≤ n) :
    takeChars n s = s :=
  String.ext (List.take_of_length_le h)

theorem takeChars_ne_empty (n : Nat) (s : String) (hn : 0 < n)
    (hs : 0 < s.length) : takeChars n s ≠ "" := by
  intro h
  have hl : (takeChars n s).length = 0 := by rw [h]; rfl
  rw [length_takeChars] at hl
  omega

theorem takeChars_of_length_zero (s : String) (h : s.length = 0) :
    takeChars 12000 s = "" :=
  String.ext (by
    show s.data.take 12000 = ([] : List Char)
    simp [List.eq_nil_of_length_eq_zero h])

/-- The filesystem after a successful `write_file` holds the written content
at the written path. -/
theorem write_file_fs_lookup (fs : FS) (p c : String) :
    (write_file fs p c .ok).2 p = some c := by
  simp [write_file, write_file_body]

/-- Reading a path whose file holds `content` returns the capped content or
the empty-file marker. -/
theorem read_file_found (fs : FS) (p content : String)
    (h : fs p = some content) :
    read_file fs p .ok
      = .ok (if takeChars 12000 content = "" then "(empty file)"
             else takeChars 12000 content) := by
  simp only [read_file, read_file_body, h]

/-! ### Claims -/

/-- C1: the read-after-write claim fails at empty content: writing the empty
string to a path and reading it back yields the distinct marker
"(empty file)", not the written content, although its length 0 is within the
12000 cap. -/
theorem C1_counterexample :
    read_file ((write_file fsEmpty "a.txt" "" .ok).2) "a.txt" .ok
      = .ok "(empty file)"
    ∧ "(empty file)" ≠ "" := by
  constructor
  · rfl
  · intro h
    have hl := congrArg String.length h
    simp [String.length] at hl

/-- C1 (amended): writing content C to path P and then reading P returns
exactly C when C is non-empty of at most 12000 characters, the first 12000
characters of C when C is longer, and the marker "(empty file)" when C is
empty. -/
theorem C1_read_after_write (fs : FS) (p c : String) :
    (1 ≤ c.length → c.length ≤ 12000 →
      read_file ((write_file fs p c .ok).2) p .ok = .ok c)
    ∧ (12000 < c.length →
      read_file ((write_file fs p c .ok).2) p .ok = .ok (takeChars 12000 c))
    ∧ (c.length = 0 →
      read_file ((write_file fs p c .ok).2) p .ok = .ok "(empty file)") := by
  have hlook := write_file_fs_lookup fs p c
  have hfound := read_file_found _ p c hlook
  refine ⟨?_, ?_, ?_⟩
  · intro h1 h2
    have htake := takeChars_of_length_le 12000 c h2
    have hne : takeChars 12000 c ≠ "" :=
      takeChars_ne_empty 12000 c (by omega) (by omega)
    rw [hfound, if_neg hne, htake]
  · intro h
    have hne : takeChars 12000 c ≠ "" :=
      takeChars_ne_empty 12000 c (by omega) (by omega)
    rw [hfound, if_neg hne]
  · intro h
    rw [hfound, if_pos (takeChars_of_length_zero c h)]

/-- C1 witness: a concrete read-after-write round trip. -/
theorem C1_witness :
    read_file ((write_file fsEmpty "a.txt" "hi" .ok).2) "a.txt" .ok = .ok "hi" :=
  (C1_read_after_write fsEmpty "a.txt" "hi").1 (by decide) (by decide)

/-- C8: reading a path at which no file exists returns, without any fault
escaping to the caller, an error string containing the path; and no outcome
of the underlying I/O makes `read_file` raise at all. -/
theorem C8_read_not_found (fs : FS) (p : String) (oc : IOOutcome) :
    (read_file fs p oc).isOk = true
    ∧ (fs p = none →
        ∃ pre post, read_file fs p .ok = .ok (pre ++ p ++ post)) := by
  constructor
  · cases oc with
    | fault m => rfl
    | ok =>
      cases h : fs p with
      | none =>
        simp only [read_file, read_file_body, h]
        rfl
      | some content =>
        rw [read_file_found fs p content h]
        rfl
  · intro h
    refine ⟨"Error: file not found – ", "", ?_⟩
    simp [read_file, read_file_body, h]

/-- C8 witness: reading a concrete missing path on the empty filesystem. -/
theorem C8_witness :
    ∃ pre post, read_file fsEmpty "/nope" .ok = .ok (pre ++ "/nope" ++ post) :=
  (C8_read_not_found fsEmpty "/nope" .ok).2 rfl

/-- C9: the success string of `write_file` does not report bytes written: for
the one-character content "é" the file receives 2 bytes (its UTF-8 size, the
encoding the source opens the file with), yet the success string reports the
character count 1. -/
theorem C9_counterexample :
    (write_file fsEmpty "a.txt" "é" .ok).1 = .ok "Wrote 1 chars to a.txt"
    ∧ String.utf8ByteSize "é" = 2
    ∧ (1 : Nat) ≠ 2 := by
  refine ⟨rfl, by decide, by decide⟩

/-- C9 (amended): on a successful write the tool returns a success string
reporting the number of characters of the content (`len(content)`), which
coincides with the bytes written only for single-byte characters; the file
then holds exactly the written content. -/
theorem C9_write_success (fs : FS) (p c : String) :
    (write_file fs p c .ok).1
      = .ok ("Wrote " ++ toString c.length ++ " chars to " ++ p)
    ∧ (write_file fs p c .ok).2 p = some c := by
  exact ⟨rfl, write_file_fs_lookup fs p c⟩

/-- Every outcome of `read_file` is a returned string, never an escaping
exception. -/
theorem read_file_isOk (fs : FS) (p : String) (oc : IOOutcome) :
    (read_file fs p oc).isOk = true := by
  cases oc with
  | fault m => rfl
  | ok =>
    cases h : fs p with
    | none =>
      simp only [read_file, read_file_body, h]
      rfl
    | some content =>
      rw [read_file_found fs p content h]
      rfl

/-- Every outcome of `write_file` is a returned string, never an escaping
exception. -/
theorem write_file_isOk (fs : FS) (p c : String) (oc : IOOutcome) :
    (write_file fs p c oc).1.isOk = true := by
  cases oc <;> rfl

/-- Every outcome of `list_files` is a returned string, never an escaping
exception. -/
theorem list_files_isOk (oc : ScanOutcome) :
    (list_files oc).isOk = true := by
  cases oc with
  | fault m => rfl
  | ok entries =>
    simp only [list_files, list_files_body]
    split <;> rfl

/-- Every outcome of `execute_python` is a returned string, never an
escaping exception. -/
theorem execute_python_isOk (code : String) (oc : ExecOutcome) :
    (execute_python code oc).1.isOk = true := by
  obtain ⟨cr, wr, run⟩ := oc
  cases cr with
  | fault m => rfl
  | ok =>
    cases wr with
    | fault m => rfl
    | ok =>
      cases run with
      | completed rc out err =>
        simp only [execute_python]
        split <;> rfl
      | timeout => rfl
      | fault m => rfl

/-- C4: no tool lets a fault escape to its caller: for every argument value
and every outcome of the underlying effects, each of the code-execution,
file-read, file-write and directory-listing tools returns a result string
(`Except.ok`), converting every failure mode to a descriptive string. -/
theorem C4_tools_never_raise (code : String) (oc1 : ExecOutcome) (fs : FS)
    (p : String) (oc2 : IOOutcome) (p2 c : String) (oc3 : IOOutcome)
    (oc4 : ScanOutcome) :
    (execute_python code oc1).1.isOk = true
    ∧ (read_file fs p oc2).isOk = true
    ∧ (write_file fs p2 c oc3).1.isOk = true
    ∧ (list_files oc4).isOk = true :=
  ⟨execute_python_isOk code oc1, read_file_isOk fs p oc2,
   write_file_isOk fs p2 c oc3, list_files_isOk oc4⟩

/-- C6: the scratch-file cleanup claim fails on the exit path where writing
the script body to the already-created scratch file itself faults: the tool
returns the error string, but the `finally` block skips the unlink because
`tmp_path` was never assigned, and the scratch file remains on disk. -/
theorem C6_counterexample :
    (execute_python "print(1)"
        ⟨.ok, .fault "No space left on device", .timeout⟩).2 = true
    ∧ (execute_python "print(1)"
        ⟨.ok, .fault "No space left on device", .timeout⟩).1
      = .ok "Error: No space left on device" :=
  ⟨rfl, rfl⟩

/-- C6 (amended): the scratch file of `execute_python` remains on disk after
the tool returns exactly when the scratch file was created but the write of
the script body into it faulted; on every other exit path — success,
nonzero exit, timeout, a fault of the subprocess call, or a fault before
the scratch file existed — it is removed (or was never created). -/
theorem C6_scratch_cleanup (code : String) (oc : ExecOutcome) :
    (execute_python code oc).2 = true
      ↔ oc.create = .ok ∧ oc.write ≠ .ok := by
  obtain ⟨cr, wr, run⟩ := oc
  cases cr with
  | fault m => simp [execute_python]
  | ok =>
    cases wr with
    | fault m => simp [execute_python]
    | ok =>
      cases run with
      | completed rc out err => simp [execute_python]
      | timeout => simp [execute_python]
      | fault m => simp [execute_python]

/-- The lexicographic list comparison is transitive. -/
theorem listCharLe_trans (a : List Char) : ∀ b c,
    listCharLe a b = true → listCharLe b c = true →
    listCharLe a c = true := by
  induction a with
  | nil => intro b c _ _; rfl
  | cons x xs ih =>
    intro b c hab hbc
    cases b with
    | nil => simp [listCharLe] at hab
    | cons y ys =>
      cases c with
      | nil => simp [listCharLe] at hbc
      | cons z zs =>
        simp only [listCharLe] at hab hbc ⊢
        by_cases h1 : x.toNat < y.toNat
        · by_cases h2 : y.toNat < z.toNat
          · simp [show x.toNat < z.toNat by omega]
          · by_cases h3 : z.toNat < y.toNat
            · simp [h2, h3] at hbc
            · simp [show x.toNat < z.toNat by omega]
        · by_cases h4 : y.toNat < x.toNat
          · simp [h1, h4] at hab
          · simp [h1, h4] at hab
            by_cases h2 : y.toNat < z.toNat
            · simp [show x.toNat < z.toNat by omega]
            · by_cases h3 : z.toNat < y.toNat
              · simp [h2, h3] at hbc
              · simp [h2, h3] at hbc
                simp [show ¬ x.toNat < z.toNat by omega,
                      show ¬ z.toNat < x.toNat by omega]
                exact ih ys zs hab hbc

/-- The lexicographic list comparison is total. -/
theorem listCharLe_total (a : List Char) : ∀ b,
    (listCharLe a b || listCharLe b a) = true := by
  induction a with
  | nil => intro b; simp [listCharLe]
  | cons x xs ih =>
    intro b
    cases b with
    | nil => simp [listCharLe]
    | cons y ys =>
      simp only [listCharLe]
      by_cases h1 : x.toNat < y.toNat
      · simp [h1]
      · by_cases h2 : y.toNat < x.toNat
        · simp [h1, h2]
        · simp [h1, h2]
          simpa using ih ys

/-- The entry comparison is transitive. -/
theorem entryLe_trans (a b c : DirEntry) (hab : entryLe a b = true)
    (hbc : entryLe b c = true) : entryLe a c = true := by
  simp only [entryLe] at hab hbc ⊢
  by_cases h1 : entryKey a < entryKey b
  · by_cases h2 : entryKey b < entryKey c
    · simp [show entryKey a < entryKey c by omega]
    · by_cases h3 : entryKey c < entryKey b
      · simp [h2, h3] at hbc
      · simp [show entryKey a < entryKey c by omega]
  · by_cases h4 : entryKey b < entryKey a
    · simp [h1, h4] at hab
    · simp [h1, h4] at hab
      by_cases h2 : entryKey b < entryKey c
      · simp [show entryKey a < entryKey c by omega]
      · by_cases h3 : entryKey c < entryKey b
        · simp [h2, h3] at hbc
        · simp [h2, h3] at hbc
          simp [show ¬ entryKey a < entryKey c by omega,
                show ¬ entryKey c < entryKey a by omega, strLe] at hab hbc ⊢
          exact listCharLe_trans _ _ _ hab hbc

/-- The entry comparison is total. -/
theorem entryLe_total (a b : DirEntry) :
    (entryLe a b || entryLe b a) = true := by
  simp only [entryLe]
  by_cases h1 : entryKey a < entryKey b
  · simp [h1]
  · by_cases h2 : entryKey b < entryKey a
    · simp [h1, h2]
    · simp [h1, h2, strLe]
      simpa using listCharLe_total a.name.data b.name.data

instance : IsTrans DirEntry entryRel :=
  ⟨fun a b c => entryLe_trans a b c⟩

instance : IsTotal DirEntry entryRel :=
  ⟨fun a b => by
    have h := entryLe_total a b
    rcases Bool.or_eq_true_iff.mp h with h | h
    · exact Or.inl h
    · exact Or.inr h⟩

/-- The directory of the claim scenario: subdirectories b and a, files z.txt
and y.txt (in scan order), with sizes 5 and 3 bytes. -/
def exampleDir : List DirEntry :=
  [⟨"z.txt", false, true, 5⟩, ⟨"b", true, false, 0⟩,
   ⟨"a", true, false, 0⟩, ⟨"y.txt", false, true, 3⟩]

/-- C7: the entries `list_files` renders are a permutation of the scanned
entries sorted directories-first then alphabetically; on the scenario
directory with subdirectories b, a and files z.txt, y.txt the listing is in
order a, b, y.txt, z.txt with DIR/FILE tags and file sizes; an empty
directory yields the distinct marker string. -/
theorem C7_list_files (entries : List DirEntry) :
    List.Pairwise (fun a b => entryLe a b = true) (sortEntries entries)
    ∧ (sortEntries entries).Perm entries
    ∧ list_files (.ok exampleDir)
      = .ok "[DIR ] a\n[DIR ] b\n[FILE] y.txt (3 B)\n[FILE] z.txt (5 B)"
    ∧ list_files (.ok []) = .ok "(empty directory)" := by
  refine ⟨?_, ?_, ?_, rfl⟩
  · exact List.sorted_insertionSort entryRel entries
  · exact List.perm_insertionSort entryRel entries
  · rfl

/-- Every frame the endpoint forwards for an agent event is a token, a
tool-start or a tool-end frame — never `done`, never `error` — and a token
frame always carries non-empty content. -/
theorem emitStream_safe (evs : List AgentEvent) (e : OutEvent)
    (h : e ∈ (evs.map emit).flatten) :
    isDone e = false ∧ isError e = false
    ∧ ∀ s, e = .token s → s ≠ "" := by
  rcases List.mem_flatten.mp h with ⟨l, hl, he⟩
  rcases List.mem_map.mp hl with ⟨ev, _, rfl⟩
  cases ev with
  | chatModelStream c =>
    cases c with
    | ofStr s =>
      simp only [emit] at he
      by_cases hs : s = ""
      · rw [if_pos hs] at he
        simp at he
      · rw [if_neg hs] at he
        rcases List.mem_singleton.mp he with rfl
        exact ⟨rfl, rfl, fun t ht => by cases ht; exact hs⟩
    | ofList _ => simp [emit] at he
  | toolStartEv n i =>
    rcases List.mem_singleton.mp he with rfl
    exact ⟨rfl, rfl, fun t ht => by cases ht⟩
  | toolEndEv n o =>
    rcases List.mem_singleton.mp he with rfl
    exact ⟨rfl, rfl, fun t ht => by cases ht⟩
  | chainEndEv n out => simp [emit] at he
  | otherEv k => simp [emit] at he

/-- A list with no error frame satisfies `errorThenDone` exactly when its
continuation does. -/
theorem errorThenDone_append (xs ys : List OutEvent)
    (h : ∀ e ∈ xs, isError e = false) :
    errorThenDone (xs ++ ys) = errorThenDone ys := by
  induction xs with
  | nil => rfl
  | cons x xs ih =>
    have hx : isError x = false := h x (List.mem_cons_self x xs)
    have hrest : ∀ e ∈ xs, isError e = false :=
      fun e he => h e (List.mem_cons_of_mem x he)
    cases x with
    | error m => simp [isError] at hx
    | token s => simpa [errorThenDone] using ih hrest
    | tool_start n i => simpa [errorThenDone] using ih hrest
    | tool_end n o => simpa [errorThenDone] using ih hrest
    | done => simpa [errorThenDone] using ih hrest

/-- C2: for every turn, the emitted frame sequence contains exactly one
`done` frame, that frame is the last of the turn, and every `error` frame is
immediately followed by the `done` frame. -/
theorem C2_turn_events (history : List String) (userText : String)
    (stream : TurnStream) :
    countDone (runTurn history userText stream).1 = 1
    ∧ (runTurn history userText stream).1.getLast? = some .done
    ∧ errorThenDone (runTurn history userText stream).1 = true := by
  have hsafe := emitStream_safe stream.events
  have hcount0 : (stream.events.map emit).flatten.countP isDone = 0 :=
    List.countP_eq_zero.mpr fun e he => by
      simp [(hsafe e he).1]
  have hnoerr : ∀ e ∈ (stream.events.map emit).flatten, isError e = false :=
    fun e he => (hsafe e he).2.1
  cases hexc : stream.exc with
  | none =>
    refine ⟨?_, ?_, ?_⟩
    · simp only [runTurn, hexc, countDone, List.countP_append, hcount0]
      rfl
    · simp only [runTurn, hexc]
      exact List.getLast?_concat _
    · simp only [runTurn, hexc]
      rw [errorThenDone_append _ _ hnoerr]
      rfl
  | some m =>
    refine ⟨?_, ?_, ?_⟩
    · simp only [runTurn, hexc, countDone, List.countP_append, hcount0]
      rfl
    · simp only [runTurn, hexc]
      have hsplit :
          (stream.events.map emit).flatten
              ++ [OutEvent.error (takeChars 600 m), OutEvent.done]
            = ((stream.events.map emit).flatten
              ++ [OutEvent.error (takeChars 600 m)]) ++ [OutEvent.done] := by
        simp
      rw [hsplit]
      exact List.getLast?_concat _
    · simp only [runTurn, hexc]
      rw [errorThenDone_append _ _ hnoerr]
      rfl

/-- The token frames the endpoint forwards for a list of agent events are
exactly the non-empty string chunks of the model stream, in order. -/
theorem tokens_emitStream (evs : List AgentEvent) :
    ((evs.map emit).flatten).filterMap tokenContent
      = evs.filterMap chunkToken := by
  induction evs with
  | nil => rfl
  | cons ev evs ih =>
    simp only [List.map_cons, List.flatten_cons, List.filterMap_append, ih]
    cases ev with
    | chatModelStream c =>
      cases c with
      | ofStr s =>
        by_cases hs : s = ""
        · simp [emit, chunkToken, hs]
        · simp [emit, chunkToken, tokenContent, hs]
      | ofList parts => simp [emit, chunkToken]
    | toolStartEv n i => simp [emit, chunkToken, tokenContent]
    | toolEndEv n o => simp [emit, chunkToken, tokenContent]
    | chainEndEv n out => simp [emit, chunkToken]
    | otherEv k => simp [emit, chunkToken]

/-- C10: every token frame of a turn carries non-empty content, and the
token frames are exactly the model-stream chunks whose content is a
non-empty string — chunks with empty or non-string (tool-call delta list)
content produce no token frame. -/
theorem C10_tokens (history : List String) (userText : String)
    (stream : TurnStream) :
    (runTurn history userText stream).1.filterMap tokenContent
      = stream.events.filterMap chunkToken
    ∧ tokensNonEmpty (runTurn history userText stream).1 = true := by
  have hsafe := emitStream_safe stream.events
  constructor
  · cases hexc : stream.exc with
    | none =>
      simp only [runTurn, hexc, List.filterMap_append, tokens_emitStream]
      simp [tokenContent]
    | some m =>
      simp only [runTurn, hexc, List.filterMap_append, tokens_emitStream]
      simp [tokenContent]
  · rw [tokensNonEmpty, List.all_eq_true]
    intro e he
    have hmem : e ∈ (stream.events.map emit).flatten
        ∨ isDone e = true ∨ isError e = true := by
      cases hexc : stream.exc with
      | none =>
        rw [runTurn] at he
        simp only [hexc] at he
        rcases List.mem_append.mp he with h | h
        · exact Or.inl h
        · rcases List.mem_singleton.mp h with rfl
          exact Or.inr (Or.inl rfl)
      | some m =>
        rw [runTurn] at he
        simp only [hexc] at he
        rcases List.mem_append.mp he with h | h
        · exact Or.inl h
        · rcases List.mem_cons.mp h with rfl | h
          · exact Or.inr (Or.inr rfl)
          · rcases List.mem_singleton.mp h with rfl
            exact Or.inr (Or.inl rfl)
    cases e with
    | token s =>
      rcases hmem with h | h | h
      · exact decide_eq_true ((hsafe _ h).2.2 s rfl)
      · simp [isDone] at h
      · simp [isError] at h
    | tool_start n i => rfl
    | tool_end n o => rfl
    | done => rfl
    | error m => rfl

/-- C3: a frame that is not valid JSON is not ignored: `json.loads` raises a
`json.decoder.JSONDecodeError` that no except clause of the handler catches,
so the outcome is a fault, not the ignored outcome the claim requires. -/
theorem C3_counterexample :
    frameStep (.error "Expecting value: line 1 column 1 (char 0)")
      = .fault "json.decoder.JSONDecodeError"
    ∧ frameStep (.error "Expecting value: line 1 column 1 (char 0)")
      ≠ .ignored := by
  exact ⟨rfl, by decide⟩

/-- C3 (amended): only well-formed JSON object frames whose `message` field
is missing or maps to a string that trims to empty are ignored (no turn, no
error frame, the loop awaits the next frame); an object frame whose trimmed
message is non-empty starts a turn with that text; every other frame — not
valid JSON, valid JSON that is not an object, or an object whose `message`
value is not a string — raises an uncaught fault that terminates the
connection handler. -/
theorem C3_frame_handling (e : String) (fields : List (String × JValue))
    (elems : List JValue) (s : String) (n : Int) (b : Bool) :
    frameStep (.error e) = .fault "json.decoder.JSONDecodeError"
    ∧ frameStep (.ok (.obj fields))
      = (match fields.lookup "message" with
         | none => .ignored
         | some (.str t) =>
           if stripStr t = "" then .ignored else .startTurn (stripStr t)
         | some _ => .fault "AttributeError")
    ∧ frameStep (.ok (.arr elems)) = .fault "AttributeError"
    ∧ frameStep (.ok (.str s)) = .fault "AttributeError"
    ∧ frameStep (.ok (.num n)) = .fault "AttributeError"
    ∧ frameStep (.ok (.boolean b)) = .fault "AttributeError"
    ∧ frameStep (.ok .null) = .fault "AttributeError" := by
  refine ⟨rfl, ?_, rfl, rfl, rfl, rfl, rfl⟩
  cases h : fields.lookup "message" with
  | none =>
    simp only [frameStep, pyGet, pyStrip, h]
    rfl
  | some v =>
    cases v with
    | str t => simp [frameStep, pyGet, pyStrip, h]
    | obj fs => simp [frameStep, pyGet, pyStrip, h]
    | arr l => simp [frameStep, pyGet, pyStrip, h]
    | num m => simp [frameStep, pyGet, pyStrip, h]
    | boolean c => simp [frameStep, pyGet, pyStrip, h]
    | null => simp [frameStep, pyGet, pyStrip, h]

/-- C5: the repository configures no step bound for the reasoning loop
(`create_agent` passes none to the framework), and without one the loop
permits an infinite run: under a model that requests a tool call at every
generation step, the loop is still running after any number of steps and
never reaches a final answer, let alone an explicit step-limit outcome. -/
theorem C5_no_step_bound :
    create_agent_setup.stepBound = none
    ∧ ∀ n, (loopIter alwaysCalls (fun _ => "result") [.user "hi"] n).isRunning
        = true := by
  refine ⟨rfl, ?_⟩
  intro n
  induction n with
  | zero => rfl
  | succ n ih =>
    cases h : loopIter alwaysCalls (fun _ => "result") [.user "hi"] n with
    | running conv =>
      simp [loopIter, loopStep, h, alwaysCalls, LoopState.isRunning]
    | finished a =>
      rw [h] at ih
      simp [LoopState.isRunning] at ih
